import Mathlib

/-!
Verification of the clinic-scraper pipeline (retry executor, bounded
concurrency scheduler, classification orchestrator, result aggregator,
phone formatting, scraper response handling, lead output) against its
natural-language specification.

The definitions below are a shallow embedding of the TypeScript sources:
pure functions become Lean functions; asynchronous operations become
functions from an attempt index to an explicit result; thrown exceptions
become the error side of an Except value; JavaScript truthiness is made
explicit wherever the source relies on it.  Logging calls are I/O only and
are dropped from the embedding.
-/

/- ### Error model (src/src/retry.ts)

The retry logic inspects a thrown error for a numeric status field and a
Google-RPC RetryInfo entry inside an errorDetails array.  A detail's
retryDelay string, when it parses to a non-negative number of seconds,
is represented here already converted to milliseconds, i.e. as the value
of Math.ceil(parseFloat(retryDelay) * 1000); a detail whose retryDelay is
absent, not a string, or does not parse is represented with none. -/

structure JsErrDetail where
  atType : String
  retryDelayMs : Option Nat
  deriving DecidableEq

structure JsErr where
  status : Option Int
  errorDetails : List JsErrDetail
  deriving DecidableEq

/-- Terminal result of the retry loop: either the last error thrown by the
operation, or the defensive "Retry logic exhausted unexpectedly" error that
the source throws after the loop (reachable only when maxAttempts = 0). -/
inductive RetryError (E : Type) where
  | fromFn (e : E)
  | exhausted
  deriving DecidableEq

/-- Merged retry options, i.e. the opts value after
\x7b...DEFAULT_OPTIONS, ...options\x7d in withRetry. -/
structure RetryOpts where
  maxAttempts : Nat
  baseDelayMs : Nat
  maxDelayMs : Nat
  deriving DecidableEq

/-- DEFAULT_OPTIONS from src/src/retry.ts. -/
def defaultRetryOpts : RetryOpts := ⟨3, 2000, 60000⟩

/-- Caller-supplied RetryOptions: each field optional, defaulted by merge. -/
structure RetryOptions where
  maxAttempts : Option Nat := none
  baseDelayMs : Option Nat := none
  maxDelayMs : Option Nat := none

/-- Models the object spread \x7b...DEFAULT_OPTIONS, ...options\x7d. -/
def mergeOptions (o : RetryOptions) : RetryOpts :=
  ⟨o.maxAttempts.getD defaultRetryOpts.maxAttempts,
   o.baseDelayMs.getD defaultRetryOpts.baseDelayMs,
   o.maxDelayMs.getD defaultRetryOpts.maxDelayMs⟩

def retryInfoType : String := "type.googleapis.com/google.rpc.RetryInfo"

/-- isRateLimitError from src/src/retry.ts: the error object has a status
field strictly equal to 429. -/
def isRateLimitError (e : JsErr) : Bool :=
  e.status == some 429

/-- extractRetryDelay from src/src/retry.ts: scan errorDetails for the first
RetryInfo entry whose retryDelay is a string parsing to a number, and return
its value in milliseconds. -/
def extractRetryDelay (e : JsErr) : Option Nat :=
  match e.errorDetails.find? (fun d => d.atType == retryInfoType && d.retryDelayMs.isSome) with
  | some d => d.retryDelayMs
  | none => none

/-- The delay computed for a failed non-final attempt in withRetry
(src/src/retry.ts lines 89-106).  For a 429 error the source evaluates
serverDelay || baseDelayMs * 2 ^ attempt, so a serverDelay of 0 is falsy
and falls back to the exponential formula; the rate-limit fallback uses
exponent attempt and no maxDelay ceiling, while the generic branch uses
exponent attempt - 1 capped at maxDelayMs. -/
def computeDelay (e : JsErr) (opts : RetryOpts) (attempt : Nat) : Nat :=
  if isRateLimitError e then
    match extractRetryDelay e with
    | some d => if d = 0 then opts.baseDelayMs * 2 ^ attempt else d
    | none => opts.baseDelayMs * 2 ^ attempt
  else
    min (opts.baseDelayMs * 2 ^ (attempt - 1)) opts.maxDelayMs

/-- The retry loop of withRetry (src/src/retry.ts lines 75-110).  The
operation is modelled as a function from the 1-based attempt number to the
result of that invocation.  The second Nat argument is the number of
attempts still allowed (maxAttempts - attempt + 1 at loop entry); the
result carries the final value or error, the number of invocations
performed, and the list of delays waited between attempts. -/
def withRetryGo {A : Type} (fn : Nat → Except JsErr A) (opts : RetryOpts) :
    Nat → Nat → Except (RetryError JsErr) A × Nat × List Nat
  | _, 0 => (Except.error RetryError.exhausted, 0, [])
  | attempt, r + 1 =>
    match fn attempt with
    | Except.ok v => (Except.ok v, 1, [])
    | Except.error e =>
      if r = 0 then
        (Except.error (RetryError.fromFn e), 1, [])
      else
        let d := computeDelay e opts attempt
        let rest := withRetryGo fn opts (attempt + 1) r
        (rest.1, rest.2.1 + 1, d :: rest.2.2)

/-- withRetry with already-merged options: run the loop from attempt 1. -/
def withRetryRun {A : Type} (fn : Nat → Except JsErr A) (opts : RetryOpts) :
    Except (RetryError JsErr) A × Nat × List Nat :=
  withRetryGo fn opts 1 opts.maxAttempts

/-- withRetry as exported (src/src/retry.ts line 68): merge the optional
caller options over the defaults, then run the loop. -/
def withRetry {A : Type} (fn : Nat → Except JsErr A) (options : Option RetryOptions) :
    Except (RetryError JsErr) A × Nat × List Nat :=
  withRetryRun fn (mergeOptions (options.getD {}))

/- ### Helper lemmas about the retry loop -/

lemma withRetryGo_all_fail {A : Type} (fn : Nat → Except JsErr A) (err : Nat → JsErr)
    (opts : RetryOpts) (hfn : ∀ i, fn i = Except.error (err i)) :
    ∀ r a, 0 < r →
      (withRetryGo fn opts a r).1 = Except.error (RetryError.fromFn (err (a + r - 1))) ∧
      (withRetryGo fn opts a r).2.1 = r := by
  intro r
  induction r with
  | zero => intro a h; omega
  | succ r ih =>
    intro a _
    by_cases hr : r = 0
    · subst hr
      simp [withRetryGo, hfn a]
    · have h0 : 0 < r := Nat.pos_of_ne_zero hr
      have hrest := ih (a + 1) h0
      have he : a + 1 + r - 1 = a + (r + 1) - 1 := by omega
      simp only [withRetryGo, hfn a, hr, if_false]
      refine ⟨?_, ?_⟩
      · rw [hrest.1, he]
      · rw [hrest.2]

lemma withRetryGo_succeeds {A : Type} (fn : Nat → Except JsErr A) (opts : RetryOpts) (v : A) :
    ∀ m a r, (∀ i, a ≤ i → i < a + m → ∃ e, fn i = Except.error e) →
      fn (a + m) = Except.ok v → m < r →
      (withRetryGo fn opts a r).1 = Except.ok v ∧
      (withRetryGo fn opts a r).2.1 = m + 1 := by
  intro m
  induction m with
  | zero =>
    intro a r _ hsucc hr
    obtain ⟨r, rfl⟩ : ∃ s, r = s + 1 := ⟨r - 1, by omega⟩
    simp only [Nat.add_zero] at hsucc
    simp [withRetryGo, hsucc]
  | succ m ih =>
    intro a r hfail hsucc hr
    obtain ⟨e, he⟩ := hfail a (Nat.le_refl a) (by omega)
    obtain ⟨r, rfl⟩ : ∃ s, r = s + 1 := ⟨r - 1, by omega⟩
    have hrne : r ≠ 0 := by omega
    have hrest := ih (a + 1) r
      (fun i h1 h2 => hfail i (by omega) (by omega))
      (by have : a + 1 + m = a + (m + 1) := by omega
          rw [this]; exact hsucc)
      (by omega)
    simp only [withRetryGo, he, hrne, if_false]
    exact ⟨hrest.1, by rw [hrest.2]⟩

lemma withRetryGo_delays {A : Type} (fn : Nat → Except JsErr A) (err : Nat → JsErr)
    (opts : RetryOpts) (v : A) :
    ∀ m a r, (∀ i, a ≤ i → i < a + m → fn i = Except.error (err i)) →
      fn (a + m) = Except.ok v → m < r →
      (withRetryGo fn opts a r).2.2 =
        (List.range m).map (fun k => computeDelay (err (a + k)) opts (a + k)) := by
  intro m
  induction m with
  | zero =>
    intro a r _ hsucc hr
    obtain ⟨r, rfl⟩ : ∃ s, r = s + 1 := ⟨r - 1, by omega⟩
    simp only [Nat.add_zero] at hsucc
    simp [withRetryGo, hsucc]
  | succ m ih =>
    intro a r hfail hsucc hr
    have he := hfail a (Nat.le_refl a) (by omega)
    obtain ⟨r, rfl⟩ : ∃ s, r = s + 1 := ⟨r - 1, by omega⟩
    have hrne : r ≠ 0 := by omega
    have hrest := ih (a + 1) r
      (fun i h1 h2 => hfail i (by omega) (by omega))
      (by have : a + 1 + m = a + (m + 1) := by omega
          rw [this]; exact hsucc)
      (by omega)
    simp only [withRetryGo, he, hrne, if_false]
    rw [hrest, List.range_succ_eq_map]
    simp only [List.map_cons, List.map_map, Nat.add_zero]
    congr 1
    apply List.map_congr_left
    intro k _
    have h2 : a + 1 + k = a + (k + 1) := by omega
    simp [Function.comp, h2]

/-- C1: for an operation that fails on every invocation, withRetry invokes it
exactly opts.maxAttempts times, then raises the error observed on the final
attempt, never invoking the operation again. -/
theorem withRetry_exhausts_attempts {A : Type} (fn : Nat → Except JsErr A)
    (err : Nat → JsErr) (opts : RetryOpts)
    (hfn : ∀ i, fn i = Except.error (err i)) (hpos : 1 ≤ opts.maxAttempts) :
    (withRetryRun fn opts).1 = Except.error (RetryError.fromFn (err opts.maxAttempts)) ∧
    (withRetryRun fn opts).2.1 = opts.maxAttempts := by
  have h := withRetryGo_all_fail fn err opts hfn opts.maxAttempts 1 hpos
  have he : 1 + opts.maxAttempts - 1 = opts.maxAttempts := by omega
  rw [he] at h
  exact h

def c1errC : JsErr := ⟨some 500, []⟩

/-- Witness for C1 at a concrete always-failing operation with the default
option values maxAttempts = 3. -/
theorem withRetry_exhausts_attempts_witness :
    (withRetryRun (fun _ => (Except.error c1errC : Except JsErr Nat)) defaultRetryOpts).1 =
      Except.error (RetryError.fromFn c1errC) ∧
    (withRetryRun (fun _ => (Except.error c1errC : Except JsErr Nat)) defaultRetryOpts).2.1 = 3 :=
  withRetry_exhausts_attempts (fun _ => Except.error c1errC) (fun _ => c1errC)
    defaultRetryOpts (fun _ => rfl) (by decide)

/-- C2: for an operation that fails on exactly k invocations with
k < maxAttempts and then succeeds, withRetry returns the success value after
exactly k + 1 invocations and never performs a (k + 2)-th invocation. -/
theorem withRetry_success_after_k {A : Type} (fn : Nat → Except JsErr A)
    (opts : RetryOpts) (k : Nat) (v : A)
    (hfail : ∀ i, 1 ≤ i → i ≤ k → ∃ e, fn i = Except.error e)
    (hsucc : fn (k + 1) = Except.ok v)
    (hk : k + 1 ≤ opts.maxAttempts) :
    (withRetryRun fn opts).1 = Except.ok v ∧
    (withRetryRun fn opts).2.1 = k + 1 := by
  have h := withRetryGo_succeeds fn opts v k 1 opts.maxAttempts
    (fun i h1 h2 => hfail i h1 (by omega))
    (by have : 1 + k = k + 1 := by omega
        rw [this]; exact hsucc)
    (by omega)
  exact h

def c2fn : Nat → Except JsErr Nat :=
  fun i => if i = 1 then Except.error c1errC else Except.ok 7

/-- Witness for C2 at a concrete operation failing once (k = 1) before
succeeding, under the classifier call-site retry budget maxAttempts = 5. -/
theorem withRetry_success_after_k_witness :
    (withRetryRun c2fn ⟨5, 3000, 60000⟩).1 = Except.ok 7 ∧
    (withRetryRun c2fn ⟨5, 3000, 60000⟩).2.1 = 2 :=
  withRetry_success_after_k c2fn ⟨5, 3000, 60000⟩ 1 7
    (fun i h1 h2 => ⟨c1errC, by
      have : i = 1 := by omega
      rw [this]; rfl⟩)
    rfl
    (by decide)

/-- C3 (amended): the delay before the next attempt after a non-final failed
attempt.  A rate-limited error with a positive suggested delay d waits
exactly d; a rate-limited error with no suggested delay, or a suggested
delay of 0 (falsy in the source's serverDelay || fallback expression),
waits baseDelayMs * 2 ^ attempt; any other error waits
min(baseDelayMs * 2 ^ (attempt - 1), maxDelayMs).  The last conjunct ties
this schedule to the delays actually recorded by the retry loop. -/
theorem retry_delay_schedule (e : JsErr) (opts : RetryOpts) (attempt : Nat) :
    (isRateLimitError e = true → ∀ d, extractRetryDelay e = some d → d ≠ 0 →
      computeDelay e opts attempt = d) ∧
    (isRateLimitError e = true →
      (extractRetryDelay e = none ∨ extractRetryDelay e = some 0) →
      computeDelay e opts attempt = opts.baseDelayMs * 2 ^ attempt) ∧
    (isRateLimitError e = false →
      computeDelay e opts attempt = min (opts.baseDelayMs * 2 ^ (attempt - 1)) opts.maxDelayMs) ∧
    (∀ (A : Type) (fn : Nat → Except JsErr A) (err : Nat → JsErr) (v : A) (m : Nat),
      (∀ i, 1 ≤ i → i ≤ m → fn i = Except.error (err i)) →
      fn (m + 1) = Except.ok v → m + 1 ≤ opts.maxAttempts →
      (withRetryRun fn opts).2.2 =
        (List.range m).map (fun k => computeDelay (err (k + 1)) opts (k + 1))) := by
  refine ⟨?_, ?_, ?_, ?_⟩
  · intro hrl d hd hne
    simp [computeDelay, hrl, hd, hne]
  · intro hrl hd
    rcases hd with hd | hd <;> simp [computeDelay, hrl, hd]
  · intro hrl
    simp [computeDelay, hrl]
  · intro A fn err v m hfail hsucc hm
    have h := withRetryGo_delays fn err opts v m 1 opts.maxAttempts
      (fun i h1 h2 => hfail i h1 (by omega))
      (by have : 1 + m = m + 1 := by omega
          rw [this]; exact hsucc)
      (by omega)
    rw [withRetryRun, h]
    apply List.map_congr_left
    intro k _
    have h2 : 1 + k = k + 1 := by omega
    rw [h2]

/-- A 429 error carrying a machine-readable suggested retry delay of 0 ms
(retryDelay "0s" in the RetryInfo detail). -/
def rlErrZero : JsErr := ⟨some 429, [⟨retryInfoType, some 0⟩]⟩

/-- Counterexample to C3 as stated: for a rate-limited error carrying a
machine-readable suggested delay of d = 0 ms, the code does not wait d; the
JavaScript expression serverDelay || baseDelayMs * 2 ^ attempt treats 0 as
falsy, so with the default options the recorded delays are 4000 and 8000 ms
(baseDelayMs * 2 ^ attempt), not 0. -/
theorem retry_delay_suggested_zero_counterexample :
    isRateLimitError rlErrZero = true ∧
    extractRetryDelay rlErrZero = some 0 ∧
    computeDelay rlErrZero defaultRetryOpts 1 = 4000 ∧
    (withRetryRun (fun _ => (Except.error rlErrZero : Except JsErr Nat)) defaultRetryOpts).2.2 =
      [4000, 8000] := by
  refine ⟨rfl, ?_, ?_, ?_⟩ <;> decide

/-- A 429 error with a positive suggested retry delay of 2500 ms. -/
def rlErr2500 : JsErr := ⟨some 429, [⟨retryInfoType, some 2500⟩]⟩

/-- Witness for the amended C3 at concrete inputs: a positive suggested
delay of 2500 ms is used verbatim, a 500 error uses the capped exponential
schedule, and a run failing twice before success records those delays. -/
theorem retry_delay_schedule_witness :
    computeDelay rlErr2500 defaultRetryOpts 1 = 2500 ∧
    computeDelay c1errC defaultRetryOpts 1 = 2000 ∧
    (withRetryRun (fun i => if i ≤ 2 then Except.error (rlErr2500) else Except.ok (5 : Nat))
      ⟨5, 3000, 60000⟩).2.2 = [2500, 2500] := by
  refine ⟨?_, ?_, ?_⟩
  · exact (retry_delay_schedule rlErr2500 defaultRetryOpts 1).1 rfl 2500 rfl (by decide)
  · exact (retry_delay_schedule c1errC defaultRetryOpts 1).2.2.1 rfl
  · have h := (retry_delay_schedule rlErr2500 ⟨5, 3000, 60000⟩ 0).2.2.2 Nat
      (fun i => if i ≤ 2 then Except.error (rlErr2500) else Except.ok (5 : Nat))
      (fun _ => rlErr2500) 5 2
      (fun i h1 h2 => by
        have : i ≤ 2 := h2
        simp [this])
      rfl (by decide)
    rw [h]
    decide

/- ### Phone formatting (src/src/phone.ts)

String manipulation is modelled on the underlying character lists: the
regex \D strip becomes a filter on Char.isDigit, startsWith becomes
List.isPrefixOf, slice(n) becomes List.drop n, and each anchored regex test
becomes an explicit shape check on the digit list. -/

/-- Test for the anchored regex 01[0-9] then 8 digits (11 digits total). -/
def matchMobile (ds : List Char) : Bool :=
  ds.length == 11 && ['0', '1'].isPrefixOf ds && ds.all Char.isDigit

/-- Test for the anchored regex 02 then 8 digits (10 digits total). -/
def matchCairoLandline (ds : List Char) : Bool :=
  ds.length == 10 && ['0', '2'].isPrefixOf ds && ds.all Char.isDigit

/-- Test for the anchored regex 0[3-9] then 8 digits (10 digits total). -/
def matchOtherLandline (ds : List Char) : Bool :=
  ds.length == 10 && ds.all Char.isDigit &&
    (match ds with
     | c0 :: c1 :: _ => c0 == '0' && '3' ≤ c1 && c1 ≤ '9'
     | _ => false)

/-- formatEgyptianPhone from src/src/phone.ts: strip non-digits, handle the
country-code prefixes (an if / else-if chain: a 002-prefixed number is
sliced by 2 and the 20-prefix branch is then not taken), require a leading
0, then test the three accepted shapes. -/
def formatEgyptianPhone (raw : Option String) : Option String :=
  match raw with
  | none => none
  | some r =>
    if r.isEmpty then none
    else
      let ds := r.data.filter Char.isDigit
      let digits :=
        if ['0', '0', '2'].isPrefixOf ds then ds.drop 2
        else if ['2', '0'].isPrefixOf ds && !(['0'].isPrefixOf ds) then '0' :: ds.drop 2
        else ds
      if !(['0'].isPrefixOf digits) then none
      else if matchMobile digits then some ("+2" ++ String.mk digits)
      else if matchCairoLandline digits then some ("+2" ++ String.mk digits)
      else if matchOtherLandline digits then some ("+2" ++ String.mk digits)
      else none

/-- C6: boundary behavior of formatEgyptianPhone.  The first, second and
fourth expected mappings hold, but the 002-international form is broken by
the source: slice(2) on a 002-prefixed number leaves a string starting with
2, and because the 20-prefix normalization is an else-if branch it never
runs, so the leading-0 check fails and the code returns null instead of the
documented +201012345678. -/
theorem formatEgyptianPhone_boundary :
    formatEgyptianPhone (some ("01012345678")) = some ("+201012345678") ∧
    formatEgyptianPhone (some ("0223456789")) = some ("+20223456789") ∧
    formatEgyptianPhone (some ("00201012345678")) = none ∧
    formatEgyptianPhone (some ("123")) = none := by
  refine ⟨?_, ?_, ?_, ?_⟩ <;> decide

/- ### JSON values and JavaScript truthiness

The inference response body is untyped JSON; the source casts the parsed
value with "as ClassificationResult" and never checks its shape, so the
embedding keeps the parsed value as a raw Json tree and makes every field
access and truthiness test explicit.  JSON numbers are represented as Int;
no verified claim depends on fractional numeric values. -/

inductive Json where
  | null
  | bool (b : Bool)
  | num (n : Int)
  | str (s : String)
  | arr (elems : List Json)
  | obj (fields : List (String × Json))

/-- JavaScript truthiness of a JSON value. -/
def Json.truthy : Json → Bool
  | .null => false
  | .bool b => b
  | .num n => n != 0
  | .str s => !s.isEmpty
  | .arr _ => true
  | .obj _ => true

/-- JavaScript property access on a parsed JSON value: defined fields of an
object are looked up (first binding wins), anything else is undefined,
modelled as none. -/
def jsGet (j : Json) (k : String) : Option Json :=
  match j with
  | .obj fields => fields.lookup k
  | _ => none

/-- Truthiness of a possibly-undefined value (undefined is falsy). -/
def jsTruthy (o : Option Json) : Bool :=
  match o with
  | some v => v.truthy
  | none => false

/-- The test the orchestrator and aggregator apply to a classification
value: if (classification.isPrivateClinic), i.e. JavaScript truthiness of
the isPrivateClinic property. -/
def isAcceptedVerdict (j : Json) : Bool :=
  jsTruthy (jsGet j ("isPrivateClinic"))

/-- Shape of the ClassificationResult interface from the source's types:
isPrivateClinic boolean, confidence one of High, Medium, Low, doctorName
and reasoning strings.  The source never checks this; it is stated here to
compare the code's behavior against the spec's Verdict contract. -/
def conformsVerdict (j : Json) : Bool :=
  (match jsGet j ("isPrivateClinic") with
   | some (Json.bool _) => true
   | _ => false) &&
  (match jsGet j ("confidence") with
   | some (Json.str s) => s == "High" || s == "Medium" || s == "Low"
   | _ => false) &&
  (match jsGet j ("doctorName") with
   | some (Json.str _) => true
   | _ => false) &&
  (match jsGet j ("reasoning") with
   | some (Json.str _) => true
   | _ => false)

/- ### Classification orchestrator (src/src/classifier.ts) -/

/-- RawPlace from the source's shared types. -/
structure RawPlace where
  name : String
  address : Option String := none
  phone : Option String := none
  mapsLink : Option String := none

/-- Shape of the chat-completion response as far as the source reads it:
response.choices[0]?.message?.content. -/
structure InferenceMessage where
  content : Option String

structure InferenceChoice where
  message : Option InferenceMessage

structure InferenceResponse where
  choices : List InferenceChoice

/-- The body text handed to JSON.parse in classifySinglePlace:
response.choices[0]?.message?.content || "\x7b\x7d", so a missing chain or
an empty string is replaced by the empty-object text. -/
def responseText (resp : InferenceResponse) : String :=
  match resp.choices.head? with
  | some c =>
    (match c.message with
     | some m =>
       (match m.content with
        | some s => if s.isEmpty then "\x7b\x7d" else s
        | none => "\x7b\x7d")
     | none => "\x7b\x7d")
  | none => "\x7b\x7d"

/-- classifySinglePlace (src/src/classifier.ts lines 46-64): run the remote
chat-completion call, then JSON.parse the body text and return the parsed
value unchecked (the source's "as ClassificationResult" is a compile-time
cast with no runtime validation).  The remote call and JSON.parse are
external effects, passed in as the outcome of the call for this attempt and
as the parse function; a JSON.parse SyntaxError surfaces as the error side,
which the enclosing withRetry treats like any other failure. -/
def classifySinglePlace (jsonParse : String → Except JsErr Json)
    (remote : Except JsErr InferenceResponse) : Except JsErr Json :=
  match remote with
  | Except.error e => Except.error e
  | Except.ok resp => jsonParse (responseText resp)

/-- The retry options used at the classification call site
(maxAttempts 5, baseDelayMs 3000, merged with the default maxDelayMs). -/
def classifyRetryOpts : RetryOpts := ⟨5, 3000, 60000⟩

/-- One item's unit of work (src/src/classifier.ts lines 89-110): invoke
classifySinglePlace through withRetry with the classification retry budget;
the value of attempt a of the remote call is remote a.  The 1500 ms pacing
delay precedes this and is modelled in the scheduler section. -/
def unitOfWork (jsonParse : String → Except JsErr Json)
    (remote : Nat → Except JsErr InferenceResponse) : Except (RetryError JsErr) Json :=
  (withRetryRun (fun a => classifySinglePlace jsonParse (remote a)) classifyRetryOpts).1

/-- The list Promise.allSettled resolves with (src/src/classifier.ts lines
87-112): one settled result per input place, in submission order; item i's
unit of work consumes only its own remote-call outcomes remote i.  The
fulfilled value pairs the place with its classification. -/
def classifyOutcomes (jsonParse : String → Except JsErr Json)
    (remotes : Nat → Nat → Except JsErr InferenceResponse) :
    Nat → List RawPlace → List (Except (RetryError JsErr) (RawPlace × Json))
  | _, [] => []
  | i, p :: ps =>
    (unitOfWork jsonParse (remotes i)).map (fun j => (p, j)) ::
      classifyOutcomes jsonParse remotes (i + 1) ps

/-- The aggregation loop of classifyPlaces (src/src/classifier.ts lines
114-133): walk the settled results in order, keep fulfilled results whose
classification has a truthy isPrivateClinic, drop rejected and failed
ones. -/
def aggregateAccepted (results : List (Except (RetryError JsErr) (RawPlace × Json))) :
    List (RawPlace × Json) :=
  results.filterMap (fun r =>
    match r with
    | Except.ok v => if isAcceptedVerdict v.2 then some v else none
    | Except.error _ => none)

/-- classifyPlaces (src/src/classifier.ts lines 75-134): settle every
item's unit of work, then aggregate the accepted ones. -/
def classifyPlaces (places : List RawPlace) (jsonParse : String → Except JsErr Json)
    (remotes : Nat → Nat → Except JsErr InferenceResponse) : List (RawPlace × Json) :=
  aggregateAccepted (classifyOutcomes jsonParse remotes 0 places)

lemma classifyOutcomes_length (jsonParse : String → Except JsErr Json)
    (remotes : Nat → Nat → Except JsErr InferenceResponse) :
    ∀ places i, (classifyOutcomes jsonParse remotes i places).length = places.length := by
  intro places
  induction places with
  | nil => intro i; rfl
  | cons p ps ih =>
    intro i
    simp [classifyOutcomes, ih (i + 1)]

lemma classifyOutcomes_get? (jsonParse : String → Except JsErr Json)
    (remotes : Nat → Nat → Except JsErr InferenceResponse) :
    ∀ places i k p, places.get? k = some p →
      (classifyOutcomes jsonParse remotes i places).get? k =
        some ((unitOfWork jsonParse (remotes (i + k))).map (fun j => (p, j))) := by
  intro places
  induction places with
  | nil => intro i k p h; simp at h
  | cons q ps ih =>
    intro i k p h
    cases k with
    | zero =>
      simp only [List.get?] at h
      cases h
      simp [classifyOutcomes]
    | succ k =>
      simp only [List.get?] at h
      have := ih (i + 1) k p h
      have harith : i + 1 + k = i + (k + 1) := by omega
      rw [harith] at this
      simpa [classifyOutcomes] using this

/-- C4: for a batch of n places, classifyPlaces settles exactly one
terminal outcome per item, n in total, in submission order; item k's
outcome is exactly the settled result of its own unit of work, so it is
unchanged under any change to other items' remote behavior, and the batch
always completes with the full outcome list. -/
theorem classifyPlaces_one_outcome_per_item (places : List RawPlace)
    (jsonParse : String → Except JsErr Json)
    (remotes remotes' : Nat → Nat → Except JsErr InferenceResponse)
    (k : Nat) (p : RawPlace) (hk : places.get? k = some p)
    (hiso : remotes k = remotes' k) :
    (classifyOutcomes jsonParse remotes 0 places).length = places.length ∧
    (classifyOutcomes jsonParse remotes 0 places).get? k =
      some ((unitOfWork jsonParse (remotes k)).map (fun j => (p, j))) ∧
    (classifyOutcomes jsonParse remotes 0 places).get? k =
      (classifyOutcomes jsonParse remotes' 0 places).get? k := by
  have h1 := classifyOutcomes_length jsonParse remotes places 0
  have h2 := classifyOutcomes_get? jsonParse remotes places 0 k p hk
  have h3 := classifyOutcomes_get? jsonParse remotes' places 0 k p hk
  rw [Nat.zero_add] at h2 h3
  exact ⟨h1, h2, by rw [h2, h3, hiso]⟩

def placeA : RawPlace := { name := "Dr. A Clinic" }

def placeB : RawPlace := { name := "B Hospital" }

/-- A parse function used by concrete batch runs: the empty-object body
parses to the empty JSON object, anything else is a SyntaxError. -/
def parseStub : String → Except JsErr Json :=
  fun s => if s == "\x7b\x7d" then Except.ok (Json.obj []) else Except.error ⟨none, []⟩

/-- Remote behavior used by concrete batch runs: item 0 responds with an
empty body on every attempt; every other item fails on every attempt. -/
def remotesStub : Nat → Nat → Except JsErr InferenceResponse :=
  fun i _ => if i = 0 then Except.ok ⟨[]⟩ else Except.error c1errC

/-- Variant of remotesStub where the failing sibling items fail with a
different error (a 429 instead of a 500), leaving item 0 untouched. -/
def remotesStubAlt : Nat → Nat → Except JsErr InferenceResponse :=
  fun i _ => if i = 0 then Except.ok ⟨[]⟩ else Except.error ⟨some 429, []⟩

/-- Witness for C4 on a concrete two-item batch where the second item's
unit of work fails terminally: both outcomes are still present, and item
0's outcome is its own settled value, unaffected by changing the failing
sibling's remote behavior. -/
theorem classifyPlaces_one_outcome_per_item_witness :
    (classifyOutcomes parseStub remotesStub 0 [placeA, placeB]).length = 2 ∧
    (classifyOutcomes parseStub remotesStub 0 [placeA, placeB]).get? 0 =
      some ((unitOfWork parseStub (remotesStub 0)).map (fun j => (placeA, j))) ∧
    (classifyOutcomes parseStub remotesStub 0 [placeA, placeB]).get? 0 =
      (classifyOutcomes parseStub remotesStubAlt 0 [placeA, placeB]).get? 0 := by
  have h := classifyPlaces_one_outcome_per_item [placeA, placeB] parseStub
    remotesStub remotesStubAlt 0 placeA rfl ?_
  · exact h
  · funext a
    rfl

/-- Submission-order characterization of the accepted list: walking the
batch in order, item i is kept exactly when its own unit of work settles
with a truthy isPrivateClinic verdict. -/
def acceptedFrom (jsonParse : String → Except JsErr Json)
    (remotes : Nat → Nat → Except JsErr InferenceResponse) :
    Nat → List RawPlace → List (RawPlace × Json)
  | _, [] => []
  | i, p :: ps =>
    match unitOfWork jsonParse (remotes i) with
    | Except.ok j =>
      if isAcceptedVerdict j then (p, j) :: acceptedFrom jsonParse remotes (i + 1) ps
      else acceptedFrom jsonParse remotes (i + 1) ps
    | Except.error _ => acceptedFrom jsonParse remotes (i + 1) ps

lemma classifyPlaces_eq_acceptedFrom (jsonParse : String → Except JsErr Json)
    (remotes : Nat → Nat → Except JsErr InferenceResponse) :
    ∀ places i, aggregateAccepted (classifyOutcomes jsonParse remotes i places) =
      acceptedFrom jsonParse remotes i places := by
  intro places
  induction places with
  | nil => intro i; rfl
  | cons p ps ih =>
    intro i
    simp only [classifyOutcomes, aggregateAccepted, List.filterMap_cons, acceptedFrom]
    cases h : unitOfWork jsonParse (remotes i) with
    | error e =>
      simp only [Except.map, aggregateAccepted] at ih ⊢
      rw [ih (i + 1)]
    | ok j =>
      simp only [Except.map, aggregateAccepted] at ih ⊢
      by_cases ha : isAcceptedVerdict j
      · simp [ha, ih (i + 1)]
      · simp [ha, ih (i + 1)]

lemma acceptedFrom_fst_sublist (jsonParse : String → Except JsErr Json)
    (remotes : Nat → Nat → Except JsErr InferenceResponse) :
    ∀ places i, List.Sublist ((acceptedFrom jsonParse remotes i places).map Prod.fst) places := by
  intro places
  induction places with
  | nil => intro i; simp [acceptedFrom]
  | cons p ps ih =>
    intro i
    simp only [acceptedFrom]
    cases h : unitOfWork jsonParse (remotes i) with
    | error e => exact (ih (i + 1)).cons p
    | ok j =>
      by_cases ha : isAcceptedVerdict j
      · simp only [ha, if_true, List.map_cons]
        exact (ih (i + 1)).cons₂ p
      · simp only [ha, if_false]
        exact (ih (i + 1)).cons p

/-- C5: the list classifyPlaces returns is exactly the submission-order
walk keeping the items whose classification settled successfully with an
accepted verdict (failed and rejected items are dropped), so its underlying
places form a sublist of the input batch in the original order; settle
order does not appear in the model because Promise.allSettled already
resequences results to submission order.  For a shape-conforming verdict,
whose isPrivateClinic field is a boolean, acceptance is exactly
isPrivateClinic == true. -/
theorem classifyPlaces_accepted_submission_order (places : List RawPlace)
    (jsonParse : String → Except JsErr Json)
    (remotes : Nat → Nat → Except JsErr InferenceResponse) :
    classifyPlaces places jsonParse remotes = acceptedFrom jsonParse remotes 0 places ∧
    List.Sublist ((classifyPlaces places jsonParse remotes).map Prod.fst) places ∧
    (∀ j b, jsGet j ("isPrivateClinic") = some (Json.bool b) →
      (isAcceptedVerdict j = true ↔ b = true)) := by
  refine ⟨classifyPlaces_eq_acceptedFrom jsonParse remotes places 0, ?_, ?_⟩
  · rw [classifyPlaces, classifyPlaces_eq_acceptedFrom jsonParse remotes places 0]
    exact acceptedFrom_fst_sublist jsonParse remotes places 0
  · intro j b h
    simp [isAcceptedVerdict, jsTruthy, h, Json.truthy]

/-- An accepting, shape-conforming verdict used in concrete runs. -/
def verdictTrue : Json :=
  Json.obj [("isPrivateClinic", Json.bool true)]

/-- Witness for C5 on a concrete batch: the two-item run with one rejected
and one failed item returns the empty accepted list in submission order,
and on a boolean isPrivateClinic field acceptance coincides with the field
being true. -/
theorem classifyPlaces_accepted_submission_order_witness :
    classifyPlaces [placeA, placeB] parseStub remotesStub =
      acceptedFrom parseStub remotesStub 0 [placeA, placeB] ∧
    List.Sublist ((classifyPlaces [placeA, placeB] parseStub remotesStub).map Prod.fst) [placeA, placeB] ∧
    (isAcceptedVerdict verdictTrue = true ↔ true = true) := by
  have h := classifyPlaces_accepted_submission_order [placeA, placeB] parseStub remotesStub
  exact ⟨h.1, h.2.1, h.2.2 verdictTrue true rfl⟩

/-- Counterexample to C7 as stated: the empty response body is replaced by
the empty-object text, which parses as JSON to the empty object; that value
does not conform to the Verdict shape, yet classifySinglePlace returns it
as a successful classification rather than a failure routed through the
retry path, the unit of work settles with it, and the orchestrator treats
the item as rejected (not failed) while the batch completes normally. -/
theorem verdict_shape_not_validated_counterexample :
    conformsVerdict (Json.obj []) = false ∧
    classifySinglePlace parseStub (Except.ok ⟨[]⟩) = Except.ok (Json.obj []) ∧
    unitOfWork parseStub (fun _ => Except.ok ⟨[]⟩) = Except.ok (Json.obj []) ∧
    classifyPlaces [placeA] parseStub (fun _ _ => Except.ok ⟨[]⟩) = [] ∧
    (classifyOutcomes parseStub (fun _ _ => Except.ok ⟨[]⟩) 0 [placeA]).length = 1 :=
  ⟨rfl, rfl, rfl, rfl, rfl⟩

/-- C7 (amended): a response body that fails JSON.parse is an error fed
through the standard retry path (five attempts on the classification
budget, then a terminal failure), and the batch never crashes because the
item merely settles as failed; but a body that parses as JSON is returned
as the verdict with no shape validation: whatever value the parse produced
is silently used, even when it does not conform to the Verdict shape. -/
theorem classify_parse_and_coerce (jsonParse : String → Except JsErr Json)
    (remote : Nat → Except JsErr InferenceResponse) :
    (∀ resp j, remote 1 = Except.ok resp → jsonParse (responseText resp) = Except.ok j →
      unitOfWork jsonParse remote = Except.ok j) ∧
    (∀ err : Nat → JsErr,
      (∀ a, classifySinglePlace jsonParse (remote a) = Except.error (err a)) →
      unitOfWork jsonParse remote = Except.error (RetryError.fromFn (err 5)) ∧
      (withRetryRun (fun a => classifySinglePlace jsonParse (remote a)) classifyRetryOpts).2.1 = 5) := by
  constructor
  · intro resp j hremote hparse
    have h := withRetryGo_succeeds (fun a => classifySinglePlace jsonParse (remote a))
      classifyRetryOpts j 0 1 classifyRetryOpts.maxAttempts
      (fun i h1 h2 => by omega)
      (by simp only [Nat.add_zero, classifySinglePlace, hremote, hparse])
      (by decide)
    exact h.1
  · intro err hfail
    have h := withRetryGo_all_fail (fun a => classifySinglePlace jsonParse (remote a))
      err classifyRetryOpts hfail classifyRetryOpts.maxAttempts 1 (by decide)
    have he : 1 + classifyRetryOpts.maxAttempts - 1 = 5 := by decide
    rw [he] at h
    exact ⟨h.1, h.2⟩

/-- Witness for the amended C7: an empty-body response settles successfully
with the nonconforming empty-object verdict, and an always-failing remote
call fails terminally with the fifth attempt's error. -/
theorem classify_parse_and_coerce_witness :
    unitOfWork parseStub (fun _ => Except.ok ⟨[]⟩) = Except.ok (Json.obj []) ∧
    unitOfWork parseStub (fun _ => Except.error c1errC) =
      Except.error (RetryError.fromFn c1errC) :=
  ⟨(classify_parse_and_coerce parseStub (fun _ => Except.ok ⟨[]⟩)).1 ⟨[]⟩ (Json.obj []) rfl rfl,
   ((classify_parse_and_coerce parseStub (fun _ => Except.error c1errC)).2
      (fun _ => c1errC) (fun _ => rfl)).1⟩

/- ### Google Maps scraper (scraper module, src/unnamed/part_000) -/

/-- JavaScript truthiness of a possibly-undefined string (undefined, null
and the empty string are falsy). -/
def jsTruthyStr (o : Option String) : Bool :=
  match o with
  | some s => !s.isEmpty
  | none => false

/-- The || fallback on possibly-undefined strings: keep a truthy string,
otherwise use the default. -/
def jsOrStr (a : Option String) (b : String) : String :=
  match a with
  | some s => if s.isEmpty then b else s
  | none => b

/-- GPS coordinates of a SerpApi result.  The source only ever renders them
into a URL string, so they are carried here in rendered form. -/
structure GpsCoordinates where
  latitude : String
  longitude : String

/-- SerpApiLocalResult as read by the scraper. -/
structure SerpApiLocalResult where
  title : Option String := none
  address : Option String := none
  phone : Option String := none
  place_id : Option String := none
  gps_coordinates : Option GpsCoordinates := none
  data_id : Option String := none

/-- SerpApiResponse: local_results and error are both optional. -/
structure SerpApiResponse where
  local_results : Option (List SerpApiLocalResult) := none
  error : Option String := none

/-- buildMapsLink from the scraper: prefer a truthy data_id, then a truthy
place_id, then coordinates, else the empty string. -/
def buildMapsLink (r : SerpApiLocalResult) : String :=
  if jsTruthyStr r.data_id then
    "https://www.google.com/maps/place/?q=place_id:" ++ r.data_id.getD ""
  else if jsTruthyStr r.place_id then
    "https://www.google.com/maps/place/?q=place_id:" ++ r.place_id.getD ""
  else
    match r.gps_coordinates with
    | some g => "https://www.google.com/maps/search/?api=1&query=" ++ g.latitude ++ "," ++ g.longitude
    | none => ""

/-- The per-result mapping of the scraper: title falls back to Unknown,
address and phone pass through, and a maps link is always built. -/
def toRawPlace (r : SerpApiLocalResult) : RawPlace :=
  { name := jsOrStr r.title ("Unknown")
    address := r.address
    phone := r.phone
    mapsLink := some (buildMapsLink r) }

/-- Failure of the scraper: either the wrapped getJson call exhausted its
retries, or the response carried a truthy error field, raised as a thrown
Error distinct from any empty-result return. -/
inductive ScrapeError where
  | retryFailed (e : RetryError JsErr)
  | serpError (msg : String)

/-- The post-retry part of scrapeGoogleMaps: raise on a truthy error field,
return the empty list when local_results is missing or empty, otherwise
map the results. -/
def processScrapeResponse (resp : SerpApiResponse) : Except ScrapeError (List RawPlace) :=
  if jsTruthyStr resp.error then
    Except.error (ScrapeError.serpError ("SerpApi returned error: " ++ resp.error.getD ""))
  else
    let localResults := resp.local_results.getD []
    if localResults.length == 0 then Except.ok []
    else Except.ok (localResults.map toRawPlace)

/-- scrapeGoogleMaps (src/unnamed/part_000 lines 56-108): the getJson call
is wrapped in withRetry with maxAttempts 3 and baseDelayMs 2000 (merged
with the default maxDelayMs); its attempt-indexed outcomes are the fetch
parameter.  On retry exhaustion the last error propagates; on success the
response is checked for a provider error and mapped. -/
def scrapeGoogleMaps (fetch : Nat → Except JsErr SerpApiResponse) :
    Except ScrapeError (List RawPlace) :=
  match (withRetryRun fetch ⟨3, 2000, 60000⟩).1 with
  | Except.error e => Except.error (ScrapeError.retryFailed e)
  | Except.ok resp => processScrapeResponse resp

/-- C8: for every listing-source response, a non-empty error field raises a
failure (the thrown SerpApi error, distinguishable from any returned list),
while a response with no truthy error and no results returns the empty
list without raising. -/
theorem scrape_error_vs_empty (resp : SerpApiResponse) :
    (∀ s, resp.error = some s → s ≠ "" →
      scrapeGoogleMaps (fun _ => Except.ok resp) =
        Except.error (ScrapeError.serpError ("SerpApi returned error: " ++ s))) ∧
    (jsTruthyStr resp.error = false → resp.local_results.getD [] = [] →
      scrapeGoogleMaps (fun _ => Except.ok resp) = Except.ok []) := by
  constructor
  · intro s hs hne
    have hie : s.isEmpty = false := by
      cases h : s.isEmpty
      · rfl
      · exact absurd ((String.isEmpty_iff s).mp h) hne
    simp [scrapeGoogleMaps, withRetryRun, withRetryGo, processScrapeResponse, hs,
      jsTruthyStr, hie]
  · intro ht hempty
    simp [scrapeGoogleMaps, withRetryRun, withRetryGo, processScrapeResponse, ht, hempty]

/-- Witness for C8: a response carrying the error text "quota exceeded"
raises the SerpApi failure, and a response with neither error nor results
returns the empty list. -/
theorem scrape_error_vs_empty_witness :
    scrapeGoogleMaps (fun _ => Except.ok ⟨none, some ("quota exceeded")⟩) =
      Except.error (ScrapeError.serpError ("SerpApi returned error: quota exceeded")) ∧
    scrapeGoogleMaps (fun _ => Except.ok (⟨none, none⟩ : SerpApiResponse)) = Except.ok [] := by
  constructor
  · exact (scrape_error_vs_empty ⟨none, some ("quota exceeded")⟩).1 "quota exceeded" rfl
      (by decide)
  · exact (scrape_error_vs_empty ⟨none, none⟩).2 rfl rfl

/- ### Lead construction (src/src/index.ts lines 95-104) -/

/-- The || fallback on possibly-undefined JSON values (undefined, null,
false, 0 and the empty string are falsy). -/
def jsOrJson (a : Option Json) (b : Json) : Json :=
  match a with
  | some v => if v.truthy then v else b
  | none => b

/-- The phone_number field written for a lead:
formatEgyptianPhone(place.phone) || place.phone || "". -/
def leadPhoneNumber (phone : Option String) : String :=
  jsOrStr (formatEgyptianPhone phone) (jsOrStr phone "")

/-- ClassifiedLead as written to the output files.  At runtime the
classification value is the raw parsed JSON, so doctor_name keeps the
JSON-valued || fallback and confidence_score is the raw (possibly
undefined) confidence property. -/
structure ClassifiedLead where
  clinic_name : String
  doctor_name : Json
  phone_number : String
  address : String
  Maps_link : String
  confidence_score : Option Json

/-- The per-item lead mapping in main (src/src/index.ts lines 95-104). -/
def buildLead (place : RawPlace) (classification : Json) : ClassifiedLead :=
  { clinic_name := place.name
    doctor_name := jsOrJson (jsGet classification ("doctorName")) (Json.str "")
    phone_number := leadPhoneNumber place.phone
    address := jsOrStr place.address ""
    Maps_link := jsOrStr place.mapsLink ""
    confidence_score := jsGet classification ("confidence") }

/-- The lead list written by main: one lead per accepted item, in order. -/
def buildLeads (results : List (RawPlace × Json)) : List ClassifiedLead :=
  results.map (fun pr => buildLead pr.1 pr.2)

/-- C10: every accepted item yields a written lead at the same position,
and when formatEgyptianPhone rejects the item's phone the lead's
phone_number falls back to the raw scraped phone string unchanged, or the
empty string when no phone was scraped; an invalid phone never drops,
nulls, or excludes the record. -/
theorem lead_phone_fallback (results : List (RawPlace × Json))
    (i : Nat) (place : RawPlace) (j : Json)
    (hres : results.get? i = some (place, j))
    (hinvalid : formatEgyptianPhone place.phone = none) :
    (buildLeads results).length = results.length ∧
    (buildLeads results).get? i = some (buildLead place j) ∧
    (buildLead place j).phone_number = place.phone.getD "" := by
  refine ⟨List.length_map results _, ?_, ?_⟩
  · rw [buildLeads, List.get?_map, hres]
    rfl
  · show leadPhoneNumber place.phone = place.phone.getD ""
    rw [leadPhoneNumber, hinvalid]
    cases place.phone with
    | none => rfl
    | some p =>
      by_cases hp : p.isEmpty
      · have : p = "" := (String.isEmpty_iff p).mp hp
        simp [jsOrStr, this]
      · simp [jsOrStr, hp]

/-- A place whose scraped phone does not validate as an Egyptian number. -/
def placeBadPhone : RawPlace := { name := "Dr. C Clinic", phone := some ("123") }

/-- Witness for C10: an accepted item with the unparseable phone 123 is
still written, with the raw string 123 preserved in phone_number. -/
theorem lead_phone_fallback_witness :
    (buildLeads [(placeBadPhone, verdictTrue)]).length = 1 ∧
    (buildLeads [(placeBadPhone, verdictTrue)]).get? 0 =
      some (buildLead placeBadPhone verdictTrue) ∧
    (buildLead placeBadPhone verdictTrue).phone_number = "123" :=
  lead_phone_fallback [(placeBadPhone, verdictTrue)] 0 placeBadPhone verdictTrue rfl (by decide)

/- ### Bounded concurrency scheduler

Modelled from the spec: the admission gate itself is the p-limit library,
an external dependency whose code is not part of this repository, so its
behavior is taken from the spec's Bounded Concurrency Scheduler contract
(admit at most C tasks at once, admit queued tasks in submission order as
slots free up).  The 1500 ms pacing delay that every admitted unit of work
awaits before its remote call is from src/src/classifier.ts line 91, as
the first step of the closure passed to the limiter.  Tasks are identified
by their submission index; interleaving is modelled as a small-step
transition relation over scheduler states. -/

/-- Fixed inter-request pacing delay (src/src/classifier.ts line 91). -/
def PACING_DELAY_MS : Nat := 1500

/-- State of the scheduler: tasks still queued (in submission order), tasks
admitted and currently awaiting their pacing delay (with the delay they
must wait), tasks currently in their remote call, and finished tasks. -/
structure SchedState where
  queued : List Nat
  pacing : List (Nat × Nat)
  calling : List Nat
  finished : List Nat

/-- Number of units of work currently in flight: admitted but not yet
settled, i.e. pacing or calling. -/
def inFlight (s : SchedState) : Nat :=
  s.pacing.length + s.calling.length

/-- One scheduler step: admit the head of the queue when a slot is free
(the admitted task first owes the fixed pacing delay), let a pacing task
finish its delay and start its remote call, or let a calling task settle
and free its slot. -/
inductive SchedStep (C : Nat) : SchedState → SchedState → Prop
  | acquire {s : SchedState} (t : Nat) (rest : List Nat) :
      s.queued = t :: rest → inFlight s < C →
      SchedStep C s ⟨rest, s.pacing ++ [(t, PACING_DELAY_MS)], s.calling, s.finished⟩
  | paceDone {s : SchedState} (t d : Nat) :
      (t, d) ∈ s.pacing →
      SchedStep C s ⟨s.queued, s.pacing.erase (t, d), s.calling ++ [t], s.finished⟩
  | callDone {s : SchedState} (t : Nat) :
      t ∈ s.calling →
      SchedStep C s ⟨s.queued, s.pacing, s.calling.erase t, s.finished ++ [t]⟩

/-- Initial state for a batch of n tasks: all queued in submission order. -/
def initSched (n : Nat) : SchedState :=
  ⟨List.range n, [], [], []⟩

/-- States the scheduler can reach from the initial state of n tasks under
concurrency limit C. -/
def SchedReachable (C n : Nat) (s : SchedState) : Prop :=
  Relation.ReflTransGen (SchedStep C) (initSched n) s

/-- The invariant maintained by every scheduler step: at most C units in
flight, the queue is always a suffix of the submission order (tasks are
admitted from the front, in order), and every admitted task still pacing
owes exactly the fixed 1500 ms delay before its remote call. -/
def SchedInv (C n : Nat) (s : SchedState) : Prop :=
  inFlight s ≤ C ∧
  s.queued.IsSuffix (List.range n) ∧
  (∀ td ∈ s.pacing, td.2 = PACING_DELAY_MS)

lemma schedStep_preserves (C n : Nat) (s s2 : SchedState)
    (hstep : SchedStep C s s2) (hinv : SchedInv C n s) : SchedInv C n s2 := by
  obtain ⟨hcap, hsuf, hpace⟩ := hinv
  cases hstep with
  | acquire t rest hq hlt =>
    refine ⟨?_, ?_, ?_⟩
    · simp only [inFlight, List.length_append, List.length_cons, List.length_nil] at *
      omega
    · rcases hsuf with ⟨pre, hpre⟩
      refine ⟨pre ++ [t], ?_⟩
      rw [← hpre, hq]
      simp
    · intro td htd
      simp only [List.mem_append, List.mem_singleton] at htd
      rcases htd with h | h
      · exact hpace td h
      · rw [h]
  | paceDone t d hmem =>
    refine ⟨?_, hsuf, ?_⟩
    · have hlen := List.length_erase_of_mem hmem
      simp only [inFlight, List.length_append, List.length_cons, List.length_nil, hlen] at *
      have hpos : 0 < s.pacing.length := List.length_pos_of_mem hmem
      omega
    · intro td htd
      exact hpace td (List.mem_of_mem_erase htd)
  | callDone t hmem =>
    refine ⟨?_, hsuf, hpace⟩
    have hlen := List.length_erase_of_mem hmem
    have hpos : 0 < s.calling.length := List.length_pos_of_mem hmem
    simp only [inFlight, hlen] at *
    omega

/-- C9: under concurrency limit C ≥ 1 with a batch of n > C tasks, every
reachable scheduler state has at most C units of work in flight, its queue
is a suffix of the submission order (so tasks were admitted from the front
in submission order as slots freed up), and every admitted task waits the
fixed 1500 ms pacing delay before its remote call starts. -/
theorem scheduler_bounded_inflight (C n : Nat) (_hC : 1 ≤ C) (_hn : C < n)
    (s : SchedState) (hreach : SchedReachable C n s) :
    inFlight s ≤ C ∧
    s.queued.IsSuffix (List.range n) ∧
    (∀ td ∈ s.pacing, td.2 = PACING_DELAY_MS) := by
  have hinv : SchedInv C n s := by
    induction hreach with
    | refl =>
      refine ⟨?_, List.suffix_refl _, ?_⟩
      · simp [inFlight, initSched]
      · intro td htd
        simp [initSched] at htd
    | tail hr hstep ih => exact schedStep_preserves C n _ _ hstep ih
  exact hinv

/-- Witness for C9 with C = 1 and n = 2, at the state reached after
admitting task 0: one unit in flight, task 1 still queued, and the
admitted task pacing exactly 1500 ms. -/
theorem scheduler_bounded_inflight_witness :
    inFlight ⟨[1], [(0, PACING_DELAY_MS)], [], []⟩ ≤ 1 ∧
    List.IsSuffix [1] (List.range 2) ∧
    (∀ td ∈ ([(0, PACING_DELAY_MS)] : List (Nat × Nat)), td.2 = PACING_DELAY_MS) := by
  have hreach : SchedReachable 1 2 ⟨[1], [(0, PACING_DELAY_MS)], [], []⟩ := by
    refine Relation.ReflTransGen.single ?_
    have h := SchedStep.acquire (C := 1) (s := initSched 2) 0 [1] (by decide) (by decide)
    simpa [initSched] using h
  exact scheduler_bounded_inflight 1 2 (by decide) (by decide) _ hreach
